import Mathlib

/-!
Shallow embedding of `roshambo.py` (an asyncio rock-paper-scissors server)
together with theorems settling the specification claims about it.

Modelling conventions:
* Python machine-independent `int` is `Int`; the round counter, which starts
  at 0 and is only ever incremented, is `Nat`.
* The process-wide random source is externalized: `random.choice(list(Choice))`
  becomes an explicit argument (`mine`), and the session handler receives a
  stream `rng : Nat → Choice` indexed by a draw counter.
* Exceptions become `Except`: `GameOver` and a possible `IndexError` from the
  results-list store are the error cases of `Roshambo.throw`; `ValueError`
  from parsing becomes `Option`.
* The byte stream written to the client is recorded as a `List String`, one
  element per `write` call (`writeline` appends the CRLF terminator `eol` to
  its payload; the prompt is written without a terminator, as in the source).
-/

/-- `class Choice(int, enum.Enum)`: ROCK = 0, PAPER = 1, SCISSORS = 2. -/
inductive Choice where
  | ROCK
  | PAPER
  | SCISSORS
deriving DecidableEq, Inhabited

/-- The numeric code of a choice (its `int` enum value). -/
def Choice.code : Choice → Int
  | .ROCK => 0
  | .PAPER => 1
  | .SCISSORS => 2

/-- `Choice(n)` for an integer `n`: `some` of the member with value `n`,
`none` when `n` is not a valid value (Python raises `ValueError`). -/
def Choice.ofInt : Int → Option Choice
  | 0 => some .ROCK
  | 1 => some .PAPER
  | 2 => some .SCISSORS
  | _ => none

/-- The `.name` attribute of the enum member. -/
def Choice.pyName : Choice → String
  | .ROCK => "ROCK"
  | .PAPER => "PAPER"
  | .SCISSORS => "SCISSORS"

/-- `ChoiceMap`: the dict mapping each choice to its stored list of the two
other choices, exactly as written in the source. -/
def ChoiceMap : Choice → List Choice
  | .ROCK => [.PAPER, .SCISSORS]
  | .PAPER => [.SCISSORS, .ROCK]
  | .SCISSORS => [.ROCK, .PAPER]

/-- `class Result(int, enum.Enum)`: LOSE = 0, TIE = 1, WIN = 2. -/
inductive Result where
  | LOSE
  | TIE
  | WIN
deriving DecidableEq, Inhabited

/-- The outcome computation inlined in `Roshambo.throw` (source lines 76-81):
`theirs` is the human's choice, `mine` the computer's draw. -/
def evaluate (theirs mine : Choice) : Result :=
  if mine = theirs then Result.TIE
  else if theirs = (ChoiceMap mine)[0]! then Result.WIN
  else Result.LOSE

/-- The match state of `class Roshambo` (fields of `__init__`). -/
structure Roshambo where
  rounds : Int
  round : Nat
  results : List (Option Result)
  they_win : Bool
  game_over : Bool
deriving DecidableEq

/-- `Roshambo.__init__`: rejects an even round count with
`ValueError("rounds must be odd")` (the spec's `InvalidConfiguration`);
otherwise sets up the fresh match state.  `[None] * rounds` for a negative
`rounds` is the empty list, hence `rounds.toNat`. -/
def Roshambo.init (rounds : Int) : Except String Roshambo :=
  if rounds % 2 = 0 then .error "rounds must be odd"
  else .ok { rounds := rounds, round := 0,
             results := List.replicate rounds.toNat none,
             they_win := false, game_over := false }

/-- Error cases of `Roshambo.throw`: the explicit `raise GameOver()` and the
`IndexError` Python would raise if the store `self.results[self.round] = res`
were out of range. -/
inductive ThrowErr where
  | gameOver
  | indexError
deriving DecidableEq

/-- `len([x for x in self.results if x == Result.WIN])`: `None` slots never
equal `Result.WIN`. -/
def countWinO (l : List (Option Result)) : Nat :=
  (l.filter (fun x => x == some Result.WIN)).length

/-- Number of WIN outcomes in a list of results. -/
def countWin (l : List Result) : Nat :=
  (l.filter (fun x => x == Result.WIN)).length

/-- `Roshambo.throw(theirs)` with the random draw `mine` passed explicitly.
Returns the updated state together with the tuple
`(theirs, mine, res, self.they_win)` returned by the source.  Python's
`//` on ints is floor division, hence `Int.fdiv`. -/
def Roshambo.throw (s : Roshambo) (theirs mine : Choice) :
    Except ThrowErr (Roshambo × Choice × Choice × Result × Bool) :=
  if s.game_over then .error .gameOver
  else
    let res := evaluate theirs mine
    if s.round < s.results.length then
      let results := s.results.set s.round (some res)
      let round := s.round + 1
      if (round : Int) ≥ s.rounds then
        let s' : Roshambo :=
          { s with results := results, round := round, game_over := true,
                   they_win := decide ((countWinO results : Int) > s.rounds.fdiv 2) }
        .ok (s', theirs, mine, res, s'.they_win)
      else
        let s' : Roshambo := { s with results := results, round := round }
        .ok (s', theirs, mine, res, s'.they_win)
    else .error .indexError

/-- Run a sequence of rounds: each list element supplies the human's choice
and the computer's random draw for one `throw` call. -/
def runThrows : Roshambo → List (Choice × Choice) → Except ThrowErr Roshambo
  | s, [] => .ok s
  | s, p :: rest =>
    match s.throw p.1 p.2 with
    | .error e => .error e
    | .ok (s', _) => runThrows s' rest

/-- The per-round outcomes produced by a sequence of plays. -/
def outcomes (plays : List (Choice × Choice)) : List Result :=
  plays.map fun p => evaluate p.1 p.2

/-- The beats relation as the spec words it: ROCK beats SCISSORS, PAPER
beats ROCK, SCISSORS beats PAPER.  Used to compare the spec's reading of
`ChoiceMap` against the source's actual table. -/
def specBeats : Choice → Choice
  | .ROCK => .SCISSORS
  | .PAPER => .ROCK
  | .SCISSORS => .PAPER

/-! ### Reachable match states

`midState R done` is the state of a match of `R` rounds after the rounds in
`done` have been completed: the round counter equals the number of completed
rounds, the results list holds their outcomes followed by empty slots, and
the finished/winner flags are set exactly when all `R` rounds are done. -/

/-- The state of an `R`-round match after the outcomes in `done` have been
recorded, for `done.length ≤ R`. -/
def midState (R : Nat) (done : List Result) : Roshambo :=
  { rounds := (R : Int),
    round := done.length,
    results := done.map some ++ List.replicate (R - done.length) none,
    they_win := decide (R ≤ done.length) &&
                decide ((countWin done : Int) > (R : Int).fdiv 2),
    game_over := decide (R ≤ done.length) }

lemma set_pad (l : List Result) (v : Result) (j : Nat) :
    (l.map some ++ List.replicate (j + 1) (none : Option Result)).set l.length (some v)
      = (l ++ [v]).map some ++ List.replicate j none := by
  induction l with
  | nil => simp [List.replicate_succ]
  | cons a tl ih => simpa using ih

lemma countWinO_replicate_none (k : Nat) :
    countWinO (List.replicate k (none : Option Result)) = 0 := by
  induction k with
  | zero => rfl
  | succ n ih => simp [countWinO, List.replicate_succ, List.filter_cons]

lemma countWinO_pad (l : List Result) (k : Nat) :
    countWinO (l.map some ++ List.replicate k none) = countWin l := by
  induction l with
  | nil => simpa [countWin] using countWinO_replicate_none k
  | cons a tl ih =>
    cases a <;> simpa [countWinO, countWin, List.filter_cons] using ih

lemma init_eq_midState (R : Nat) (h1 : 1 ≤ R) (h2 : ¬ (R : Int) % 2 = 0) :
    Roshambo.init (R : Int) = .ok (midState R []) := by
  simp only [Roshambo.init, if_neg h2, midState]
  have hle : ¬ R ≤ 0 := by omega
  simp [hle]

/-- `throw` raised before any mutation: a finished match rejects the call
with `GameOver` and no updated state is produced. -/
lemma throw_game_over (s : Roshambo) (t m : Choice) (h : s.game_over = true) :
    s.throw t m = .error .gameOver := by
  simp [Roshambo.throw, h]

/-- One `throw` on a mid-match state plays the round: the outcome is stored,
the counter advances, and the flags are those of the successor state. -/
lemma throw_midState (R : Nat) (done : List Result) (h : done.length < R)
    (t m : Choice) :
    (midState R done).throw t m =
      .ok (midState R (done ++ [evaluate t m]), t, m, evaluate t m,
           (midState R (done ++ [evaluate t m])).they_win) := by
  obtain ⟨j, hj⟩ : ∃ j, R - done.length = j + 1 := ⟨R - done.length - 1, by omega⟩
  have hgo : (midState R done).game_over = false := by
    simp [midState]; omega
  have hlen : (midState R done).round < (midState R done).results.length := by
    simp [midState]; omega
  have hset : (midState R done).results.set (midState R done).round
      (some (evaluate t m))
      = (done ++ [evaluate t m]).map some ++ List.replicate j none := by
    simp only [midState, hj]
    exact set_pad done (evaluate t m) j
  have hj' : R - (done ++ [evaluate t m]).length = j := by
    simp; omega
  by_cases hfin : done.length + 1 = R
  · have hge : ((midState R done).round + 1 : Int) ≥ (midState R done).rounds := by
      simp [midState]; omega
    simp only [Roshambo.throw, hgo, Bool.false_eq_true, if_false, hlen, if_pos,
      hge, hset]
    simp only [midState, hj', hfin]
    have h1 : R ≤ done.length + 1 := by omega
    have h2 : ¬ R ≤ done.length := by omega
    have hwin : countWinO (List.map some done ++ some (evaluate t m) :: List.replicate j none)
        = countWin (done ++ [evaluate t m]) := by
      have hl : List.map some done ++ some (evaluate t m) :: List.replicate j none
          = (done ++ [evaluate t m]).map some ++ List.replicate j none := by simp
      rw [hl]; exact countWinO_pad _ _
    simp [h1, h2, hwin, hfin, hj']
  · have hge : ¬ ((midState R done).round + 1 : Int) ≥ (midState R done).rounds := by
      simp [midState]; omega
    simp only [Roshambo.throw, hgo, Bool.false_eq_true, if_false, hlen, if_pos,
      hge, hset]
    simp only [midState, hj']
    have h1 : ¬ R ≤ done.length + 1 := by omega
    have h2 : ¬ R ≤ done.length := by omega
    simp [h1, h2]
    omega

/-- Running a sequence of plays from a mid-match state appends their
outcomes, as long as the total stays within the round count. -/
lemma runThrows_midState (R : Nat) (plays : List (Choice × Choice)) :
    ∀ done : List Result, done.length + plays.length ≤ R →
      runThrows (midState R done) plays = .ok (midState R (done ++ outcomes plays)) := by
  induction plays with
  | nil => intro done _; simp [runThrows, outcomes]
  | cons p rest ih =>
    intro done hlen
    have h : done.length < R := by simp at hlen; omega
    have hstep := throw_midState R done h p.1 p.2
    simp only [runThrows, hstep]
    have := ih (done ++ [evaluate p.1 p.2]) (by simp at hlen ⊢; omega)
    rw [this]
    simp [outcomes]

lemma fdiv_natCast_two (R : Nat) : (R : Int).fdiv 2 = ((R / 2 : Nat) : Int) := by
  simpa using (Int.ofNat_fdiv R 2).symm

/-- On a finished state, the frozen winner flag holds exactly when the WIN
count strictly exceeds half the round count (floor division). -/
lemma midState_they_win_finished (R : Nat) (done : List Result)
    (h : done.length = R) :
    ((midState R done).they_win = true ↔ countWin done > R / 2) := by
  simp only [midState, h, Bool.and_eq_true, decide_eq_true_eq, fdiv_natCast_two]
  constructor
  · intro hx
    exact_mod_cast hx.2
  · intro hx
    exact ⟨le_refl R, by exact_mod_cast hx⟩

/-- `runThrows` over an appended list runs the two parts in sequence. -/
lemma runThrows_append (l1 l2 : List (Choice × Choice)) : ∀ s : Roshambo,
    runThrows s (l1 ++ l2) =
      match runThrows s l1 with
      | .ok g => runThrows g l2
      | .error e => .error e := by
  induction l1 with
  | nil => intro s; simp [runThrows]
  | cons p rest ih =>
    intro s
    simp only [List.cons_append, runThrows]
    cases s.throw p.1 p.2 with
    | error e => rfl
    | ok v => exact ih v.1

/-! ### Claim theorems: match model -/

/-- C2 (counterexample): the claim says every non-positive round count is
rejected at construction, but `Roshambo.__init__` only tests `rounds % 2 == 0`
and Python's `-1 % 2` is `1`, so constructing with `rounds = -1` succeeds. -/
theorem c2_counterexample :
    (-1 : Int) ≤ 0 ∧ Roshambo.init (-1) = .ok ⟨-1, 0, [], false, false⟩ :=
  ⟨by decide, rfl⟩

/-- C2 (amended): constructing a `Roshambo` match fails with the
`InvalidConfiguration` error (`ValueError("rounds must be odd")`) exactly when
the round count is even (under Python's modulo, so zero and negative even
counts fail); every odd round count, positive or negative, is accepted before
any round is played, with the round counter at 0 and the match unfinished. -/
theorem c2_construction_parity (rounds : Int) :
    (rounds % 2 = 0 → Roshambo.init rounds = .error "rounds must be odd") ∧
    (rounds % 2 ≠ 0 → ∃ g : Roshambo, Roshambo.init rounds = .ok g ∧
       g.round = 0 ∧ g.game_over = false ∧ g.rounds = rounds) := by
  constructor
  · intro h
    simp [Roshambo.init, h]
  · intro h
    exact ⟨⟨rounds, 0, List.replicate rounds.toNat none, false, false⟩,
           by simp [Roshambo.init, h], rfl, rfl, rfl⟩

theorem c2_construction_parity_witness :
    ((5 : Int) % 2 ≠ 0) ∧ (∃ g : Roshambo, Roshambo.init 5 = .ok g ∧
       g.round = 0 ∧ g.game_over = false ∧ g.rounds = 5) :=
  ⟨by decide, (c2_construction_parity 5).2 (by decide)⟩

/-- C3 (counterexample): the first element of `ChoiceMap[ROCK]` is `PAPER`,
but the choice ROCK beats under the spec's relation is SCISSORS. -/
theorem c3_counterexample :
    (ChoiceMap Choice.ROCK)[0]! = Choice.PAPER ∧
    specBeats Choice.ROCK = Choice.SCISSORS ∧
    (ChoiceMap Choice.ROCK)[0]! ≠ specBeats Choice.ROCK := by decide

/-- C3 (amended): for every choice X, the first element of `ChoiceMap[X]` is
the choice that beats X (X's unique defeater) under the relation ROCK beats
SCISSORS, PAPER beats ROCK, SCISSORS beats PAPER; the choice X itself beats
is the second element. -/
theorem c3_choicemap_order :
    ∀ x : Choice,
      specBeats ((ChoiceMap x)[0]!) = x ∧ (ChoiceMap x)[1]! = specBeats x := by
  intro x
  cases x <;> exact ⟨rfl, rfl⟩

/-- C4: the round outcome computation is total over all 9 pairs and yields
TIE exactly on equal choices, WIN exactly on the three pairs where the
human's choice beats the computer's under the cycle
ROCK→SCISSORS→PAPER→ROCK, and LOSE on the remaining three. -/
theorem c4_evaluate_total :
    ∀ hu co : Choice,
      (evaluate hu co = Result.TIE ↔ hu = co) ∧
      (evaluate hu co = Result.WIN ↔
        ((hu = Choice.PAPER ∧ co = Choice.ROCK) ∨
         (hu = Choice.SCISSORS ∧ co = Choice.PAPER) ∨
         (hu = Choice.ROCK ∧ co = Choice.SCISSORS))) ∧
      (evaluate hu co = Result.LOSE ↔
        (¬ hu = co ∧
         ¬ ((hu = Choice.PAPER ∧ co = Choice.ROCK) ∨
            (hu = Choice.SCISSORS ∧ co = Choice.PAPER) ∨
            (hu = Choice.ROCK ∧ co = Choice.SCISSORS)))) := by
  intro hu co
  cases hu <;> cases co <;> refine ⟨?_, ?_, ?_⟩ <;> decide

/-- C5: a match with positive odd round count `R` finishes after exactly `R`
successful `throw` calls, never before or after; the round counter equals the
number of completed rounds (so each successful call increments it by exactly
1 and it stays within `[0, R]`); an `R+1`-th call fails with `GameOver`, and
a `throw` on any finished state fails with `GameOver` producing no updated
state. -/
theorem c5_match_lifecycle (R : Nat) (hodd : R % 2 = 1) :
    ∃ g0 : Roshambo, Roshambo.init (R : Int) = .ok g0 ∧
      (∀ plays : List (Choice × Choice), plays.length ≤ R →
        ∃ g : Roshambo, runThrows g0 plays = .ok g ∧
          g.round = plays.length ∧ g.round ≤ R ∧
          (g.game_over = true ↔ plays.length = R)) ∧
      (∀ plays : List (Choice × Choice), ∀ t m : Choice, plays.length + 1 ≤ R →
        ∃ g g' : Roshambo, runThrows g0 plays = .ok g ∧
          runThrows g0 (plays ++ [(t, m)]) = .ok g' ∧ g'.round = g.round + 1) ∧
      (∀ plays : List (Choice × Choice), ∀ t m : Choice, plays.length = R →
        runThrows g0 (plays ++ [(t, m)]) = .error ThrowErr.gameOver) ∧
      (∀ s : Roshambo, ∀ t m : Choice, s.game_over = true →
        s.throw t m = .error ThrowErr.gameOver) := by
  have hR : 1 ≤ R := by omega
  have h2 : ¬ (R : Int) % 2 = 0 := by omega
  refine ⟨midState R [], init_eq_midState R hR h2, ?_, ?_, ?_, ?_⟩
  · intro plays hlen
    have hrun := runThrows_midState R plays [] (by simpa using hlen)
    refine ⟨midState R (outcomes plays), by simpa using hrun, ?_, ?_, ?_⟩
    · simp [midState, outcomes]
    · simp [midState, outcomes]; omega
    · simp only [midState, outcomes, List.length_map, decide_eq_true_eq]
      omega
  · intro plays t m hlen
    have h1 := runThrows_midState R plays [] (by simp; omega)
    have h2 := runThrows_midState R (plays ++ [(t, m)]) [] (by simp; omega)
    refine ⟨_, _, by simpa using h1, by simpa using h2, ?_⟩
    simp [midState, outcomes]
  · intro plays t m hlen
    have h1 := runThrows_midState R plays [] (by simp; omega)
    rw [runThrows_append, h1]
    have hover : (midState R (outcomes plays)).game_over = true := by
      simp [midState, outcomes]; omega
    simp [runThrows, throw_game_over _ t m hover]
  · intro s t m h
    exact throw_game_over s t m h

theorem c5_match_lifecycle_witness :
    ∃ g0 : Roshambo, Roshambo.init ((3 : Nat) : Int) = .ok g0 ∧
      (∃ g : Roshambo,
        runThrows g0 [(Choice.ROCK, Choice.PAPER), (Choice.ROCK, Choice.ROCK),
                      (Choice.PAPER, Choice.ROCK)] = .ok g ∧
        g.round = 3 ∧ g.game_over = true) ∧
      runThrows g0 ([(Choice.ROCK, Choice.PAPER), (Choice.ROCK, Choice.ROCK),
                     (Choice.PAPER, Choice.ROCK)] ++ [(Choice.ROCK, Choice.ROCK)])
        = .error ThrowErr.gameOver := by
  obtain ⟨g0, hinit, hrun, _, hover, _⟩ := c5_match_lifecycle 3 (by decide)
  refine ⟨g0, hinit, ?_, ?_⟩
  · obtain ⟨g, hg, hr, _, hgo⟩ :=
      hrun [(.ROCK, .PAPER), (.ROCK, .ROCK), (.PAPER, .ROCK)] (by decide)
    exact ⟨g, hg, by simp [hr], hgo.mpr (by decide)⟩
  · exact hover _ .ROCK .ROCK (by decide)

/-- C6: for a finished match, `they_win` holds exactly when the number of WIN
outcomes recorded strictly exceeds `rounds // 2` (integer division); with 3
rounds, outcomes [WIN, WIN, LOSE] yield `true` and [LOSE, TIE, LOSE] yield
`false`. -/
theorem c6_human_wins_majority :
    (∀ R : Nat, R % 2 = 1 → ∀ plays : List (Choice × Choice), plays.length = R →
      ∃ g0 g : Roshambo, Roshambo.init (R : Int) = .ok g0 ∧
        runThrows g0 plays = .ok g ∧ g.game_over = true ∧
        (g.they_win = true ↔ countWin (outcomes plays) > R / 2)) ∧
    (outcomes [(Choice.PAPER, Choice.ROCK), (Choice.PAPER, Choice.ROCK),
               (Choice.ROCK, Choice.PAPER)]
       = [Result.WIN, Result.WIN, Result.LOSE] ∧
     ∃ g0 g : Roshambo, Roshambo.init ((3 : Nat) : Int) = .ok g0 ∧
       runThrows g0 [(Choice.PAPER, Choice.ROCK), (Choice.PAPER, Choice.ROCK),
                     (Choice.ROCK, Choice.PAPER)] = .ok g ∧
       g.they_win = true) ∧
    (outcomes [(Choice.ROCK, Choice.PAPER), (Choice.ROCK, Choice.ROCK),
               (Choice.SCISSORS, Choice.ROCK)]
       = [Result.LOSE, Result.TIE, Result.LOSE] ∧
     ∃ g0 g : Roshambo, Roshambo.init ((3 : Nat) : Int) = .ok g0 ∧
       runThrows g0 [(Choice.ROCK, Choice.PAPER), (Choice.ROCK, Choice.ROCK),
                     (Choice.SCISSORS, Choice.ROCK)] = .ok g ∧
       g.they_win = false) := by
  refine ⟨?_, ?_, ?_⟩
  · intro R hodd plays hlen
    have hR : 1 ≤ R := by omega
    have h2 : ¬ (R : Int) % 2 = 0 := by omega
    have hrun := runThrows_midState R plays [] (by simp [hlen])
    refine ⟨midState R [], midState R (outcomes plays),
            init_eq_midState R hR h2, by simpa using hrun, ?_, ?_⟩
    · simp [midState, outcomes, hlen]
    · exact midState_they_win_finished _ _ (by simp [outcomes, hlen])
  · refine ⟨rfl, midState 3 [], midState 3 (outcomes
      [(Choice.PAPER, Choice.ROCK), (Choice.PAPER, Choice.ROCK),
       (Choice.ROCK, Choice.PAPER)]), ?_, ?_, ?_⟩
    · exact init_eq_midState 3 (by omega) (by decide)
    · simpa using runThrows_midState 3 _ [] (by decide)
    · decide
  · refine ⟨rfl, midState 3 [], midState 3 (outcomes
      [(Choice.ROCK, Choice.PAPER), (Choice.ROCK, Choice.ROCK),
       (Choice.SCISSORS, Choice.ROCK)]), ?_, ?_, ?_⟩
    · exact init_eq_midState 3 (by omega) (by decide)
    · simpa using runThrows_midState 3 _ [] (by decide)
    · decide

theorem c6_human_wins_majority_witness :
    (3 : Nat) % 2 = 1 ∧
    (∃ g0 g : Roshambo, Roshambo.init ((3 : Nat) : Int) = .ok g0 ∧
      runThrows g0 [(Choice.PAPER, Choice.ROCK), (Choice.PAPER, Choice.ROCK),
                    (Choice.ROCK, Choice.PAPER)] = .ok g ∧
      g.game_over = true ∧
      (g.they_win = true ↔
        countWin (outcomes [(Choice.PAPER, Choice.ROCK), (Choice.PAPER, Choice.ROCK),
                            (Choice.ROCK, Choice.PAPER)]) > 3 / 2)) :=
  ⟨rfl, c6_human_wins_majority.1 3 rfl _ rfl⟩

/-- C10: every successful `throw` before the finishing round returns `false`
as the fourth tuple component, and the finishing call returns exactly the
frozen `they_win` value of the now-finished match. -/
theorem c10_flag_false_until_finish (R : Nat) (hodd : R % 2 = 1)
    (plays : List (Choice × Choice)) (t m : Choice) (hlt : plays.length < R) :
    ∃ g0 g g' : Roshambo, ∃ res : Result, ∃ w : Bool,
      Roshambo.init (R : Int) = .ok g0 ∧
      runThrows g0 plays = .ok g ∧
      g.throw t m = .ok (g', t, m, res, w) ∧
      w = g'.they_win ∧
      (plays.length + 1 < R → w = false) ∧
      (plays.length + 1 = R → g'.game_over = true) := by
  have hR : 1 ≤ R := by omega
  have h2 : ¬ (R : Int) % 2 = 0 := by omega
  have hrun := runThrows_midState R plays [] (by simp; omega)
  have hlen : (outcomes plays).length < R := by simp [outcomes]; omega
  have hstep := throw_midState R (outcomes plays) hlen t m
  refine ⟨midState R [], midState R (outcomes plays),
          midState R (outcomes plays ++ [evaluate t m]), evaluate t m, _,
          init_eq_midState R hR h2, by simpa using hrun, hstep, rfl, ?_, ?_⟩
  · intro hpre
    simp only [midState, Bool.and_eq_false_iff, decide_eq_false_iff_not]
    left
    simp [outcomes]
    omega
  · intro hfin
    simp only [midState, decide_eq_true_eq]
    simp [outcomes]
    omega

theorem c10_flag_false_until_finish_witness :
    (3 : Nat) % 2 = 1 ∧ ([] : List (Choice × Choice)).length < 3 ∧
    (∃ g0 g g' : Roshambo, ∃ res : Result, ∃ w : Bool,
      Roshambo.init ((3 : Nat) : Int) = .ok g0 ∧
      runThrows g0 [] = .ok g ∧
      g.throw Choice.ROCK Choice.ROCK = .ok (g', Choice.ROCK, Choice.ROCK, res, w) ∧
      w = g'.they_win ∧
      (([] : List (Choice × Choice)).length + 1 < 3 → w = false) ∧
      (([] : List (Choice × Choice)).length + 1 = 3 → g'.game_over = true)) :=
  ⟨rfl, by decide, c10_flag_false_until_finish 3 rfl [] .ROCK .ROCK (by decide)⟩

/-! ### Session protocol handler

The line-based exchange of `one_round` / `roshambo_client`.  Client input is
the list of decoded lines still unread; the random source is a stream
`rng : Nat → Choice` with a draw counter; the bytes written to the client
are recorded as a list of write payloads (`writeline` payloads carry the
CRLF terminator `eol`, the prompt is written without one). -/

/-- `StringWriter.eol`. -/
def eol : String := "\r\n"

/-- The rule line `"*" * 70` framing the round banner. -/
def stars70 : String := String.mk (List.replicate 70 '*')

/-- The second banner line: the source writes the plain string literal
`"Round {game.round + 1}"` — the `f` prefix is missing — so the brace
expression is sent verbatim, not the round number. -/
def roundHeader : String := "Round \x7bgame.round + 1\x7d"

/-- The banner and choice labels written by `one_round` before its prompt
loop (two `writelines` calls).  The `game` argument is unused precisely
because the round-header literal does not interpolate. -/
def bannerOut (_game : Roshambo) : List String :=
  [stars70 ++ eol, roundHeader ++ eol, stars70 ++ eol,
   "0 - Rock" ++ eol, "1 - Paper" ++ eol, "2 - Scissors" ++ eol]

/-- The prompt written before each read (no line terminator). -/
def promptText : String := "Enter a choice [0-2]: "

/-- ASCII whitespace as stripped by Python's `str.strip()` and ignored
around an `int()` literal. -/
def isPySpace (c : Char) : Bool :=
  c == ' ' || c == '\t' || c == '\n' || c == '\r' || c == '\x0b' || c == '\x0c'

/-- `str.strip()` on the decoded input line. -/
def pyStrip (s : String) : String :=
  String.mk (((s.data.dropWhile isPySpace).reverse.dropWhile isPySpace).reverse)

/-- Digit run of a Python int literal after the first digit: single
underscores are allowed between digits. -/
def pyDigitsAux : List Char → Nat → Option Nat
  | [], acc => some acc
  | '_' :: c :: rest, acc =>
    if c.isDigit then pyDigitsAux rest (acc * 10 + (c.toNat - 48)) else none
  | ['_'], _acc => none
  | c :: rest, acc =>
    if c.isDigit then pyDigitsAux rest (acc * 10 + (c.toNat - 48)) else none

/-- A nonempty ASCII digit run, with optional single underscores between
digits. -/
def pyDigits : List Char → Option Nat
  | [] => none
  | c :: rest => if c.isDigit then pyDigitsAux rest (c.toNat - 48) else none

/-- `int(raw_choice)` on the input line: surrounding whitespace is ignored,
then an optional sign and a digit run; `none` is Python's `ValueError`. -/
def pyInt (s : String) : Option Int :=
  match (pyStrip s).data with
  | '+' :: rest => (pyDigits rest).map (fun n => (n : Int))
  | '-' :: rest => (pyDigits rest).map (fun n => -(n : Int))
  | cs => (pyDigits cs).map (fun n => (n : Int))

/-- Modelled from the spec: the `<description>` part of the
`Invalid choice: <description>` report when `int()` fails.  The exact
CPython `ValueError` message (produced by the interpreter, not by this
repository) is abbreviated to carry the offending line; no claim depends
on the description's wording. -/
def intErrDesc (line : String) : String :=
  "invalid literal for int() with base 10: " ++ line

/-- Modelled from the spec: the description when the parsed integer is not
a valid `Choice` value (the enum constructor's `ValueError`). -/
def choiceErrDesc (n : Int) : String := toString n ++ " is not a valid Choice"

/-- The per-round verdict line written by `one_round`. -/
def resultLine : Result → String
  | .TIE => "This round is tied."
  | .WIN => "You won this round."
  | .LOSE => "You lost this round."

/-- How the `while True` prompt loop inside `one_round` ends. -/
inductive LoopEnd where
  | played (g : Roshambo) (rest : List String) (k : Nat)
  | quit (rest : List String) (k : Nat)
  | noInput
  | overErr
  | crashed
deriving DecidableEq

/-- The `while True` loop of `one_round`: write the prompt, read a line,
raise `Quit` on the quit token, report and retry on a `ValueError`, and
otherwise play the round via `throw` and report it.  Returns the write
payloads of the loop and how it ended (`noInput` is the model's stand-in
for blocking on an exhausted input list; `overErr` is the `GameOver`
exception escaping, `crashed` an `IndexError` from the results store). -/
def oneRoundLoop (g : Roshambo) (rng : Nat → Choice) :
    List String → Nat → List String × LoopEnd
  | [], _k => ([promptText], .noInput)
  | line :: rest, k =>
    if pyStrip line = "q" then ([promptText], .quit rest k)
    else
      match pyInt line with
      | none =>
        let r := oneRoundLoop g rng rest k
        (promptText :: ("Invalid choice: " ++ intErrDesc line ++ eol) :: r.1, r.2)
      | some n =>
        match Choice.ofInt n with
        | none =>
          let r := oneRoundLoop g rng rest k
          (promptText :: ("Invalid choice: " ++ choiceErrDesc n ++ eol) :: r.1, r.2)
        | some choice =>
          match g.throw choice (rng k) with
          | .error .gameOver => ([promptText], .overErr)
          | .error .indexError => ([promptText], .crashed)
          | .ok (_g', t, m, res, _w) =>
            ([promptText,
              "You chose: " ++ t.pyName ++ eol,
              "Computer chose: " ++ m.pyName ++ eol,
              resultLine res ++ eol],
             .played _g' rest (k + 1))

/-- `one_round`: the banner and choice labels, then the prompt loop. -/
def one_round (game : Roshambo) (rng : Nat → Choice) (lines : List String)
    (k : Nat) : List String × LoopEnd :=
  let r := oneRoundLoop game rng lines k
  (bannerOut game ++ r.1, r.2)

/-- How a session ends.  `starved` is the model artifact for running out of
input where the server would block; `fuelOut` never occurs for the fuel
`roshambo_client` passes but keeps the loop total. -/
inductive SessionEnd where
  | finished (g : Roshambo)
  | quitEarly (g : Roshambo)
  | starved
  | internalError
  | crashed
  | fuelOut
deriving DecidableEq

/-- The `while not game.game_over` loop of `roshambo_client`: the `Quit`
raised inside `one_round` is caught here (`quitEarly`), a finished match
leaves the loop (`finished`). -/
def sessionLoop (rng : Nat → Choice) :
    Nat → Roshambo → List String → Nat → List String × SessionEnd
  | 0, _g, _lines, _k => ([], .fuelOut)
  | fuel + 1, g, lines, k =>
    if g.game_over then ([], .finished g)
    else
      match one_round g rng lines k with
      | (out, .quit _rest _k) => (out, .quitEarly g)
      | (out, .noInput) => (out, .starved)
      | (out, .overErr) => (out, .internalError)
      | (out, .crashed) => (out, .crashed)
      | (out, .played g' rest k') =>
        let r := sessionLoop rng fuel g' rest k'
        (out ++ r.1, r.2)

/-- The message written after the loop: the verdict on normal completion,
the farewell after `Quit`; nothing on a stream failure (or, in the model,
exhausted input). -/
def finalMsg : SessionEnd → Option String
  | .finished g => some (if g.they_win then "You won the game!" else "You lost the game!")
  | .quitEarly _ => some "Giving up?"
  | _ => none

/-- The fresh `Roshambo(rounds=3)` built at the top of `roshambo_client`. -/
def roshamboStart : Roshambo :=
  { rounds := 3, round := 0, results := [none, none, none],
    they_win := false, game_over := false }

/-- `roshambo_client`: create the match, run the session loop, then write
the final message as two payloads (the text, then the CRLF), mirroring the
two `writer.write` calls of the source. -/
def roshambo_client (rng : Nat → Choice) (lines : List String) :
    List String × SessionEnd :=
  let r := sessionLoop rng (lines.length + 1) roshamboStart lines 0
  match finalMsg r.2 with
  | some msg => (r.1 ++ [msg, eol], r.2)
  | none => r

/-- The constructor call `Roshambo(rounds=3)` indeed builds `roshamboStart`. -/
lemma init_three : Roshambo.init 3 = .ok roshamboStart := rfl

/-! ### Lemmas about the session loop -/

/-- A `throw` on an unfinished match never raises `GameOver`. -/
lemma throw_ne_gameOver (s : Roshambo) (t m : Choice) (h : s.game_over = false) :
    s.throw t m ≠ .error ThrowErr.gameOver := by
  simp only [Roshambo.throw, h, Bool.false_eq_true, if_false]
  split
  · split <;> simp
  · simp

/-- The prompt loop always re-prompts first: its output starts with the
prompt. -/
lemma oneRoundLoop_starts_with_prompt (g : Roshambo) (rng : Nat → Choice)
    (lines : List String) (k : Nat) :
    ∃ tail : List String, (oneRoundLoop g rng lines k).1 = promptText :: tail := by
  cases lines with
  | nil => exact ⟨[], rfl⟩
  | cons line rest =>
    simp only [oneRoundLoop]
    split
    · exact ⟨[], rfl⟩
    · split
      · exact ⟨_, rfl⟩
      · split
        · exact ⟨_, rfl⟩
        · split
          · exact ⟨_, rfl⟩
          · exact ⟨_, rfl⟩
          · exact ⟨_, rfl⟩

/-- If the match is not finished, the prompt loop never surfaces the
`GameOver` error: the loop reaches `throw` at most once, and only on the
unfinished state it was entered with. -/
lemma oneRoundLoop_no_overErr (g : Roshambo) (rng : Nat → Choice)
    (h : g.game_over = false) :
    ∀ (lines : List String) (k : Nat),
      (oneRoundLoop g rng lines k).2 ≠ LoopEnd.overErr := by
  intro lines
  induction lines with
  | nil => intro k; simp [oneRoundLoop]
  | cons line rest ih =>
    intro k
    simp only [oneRoundLoop]
    split
    · simp
    · split
      · simpa using ih k
      · split
        · simpa using ih k
        · split
          · rename_i heq
            exact absurd heq (throw_ne_gameOver g _ _ h)
          · simp
          · simp

/-- `one_round` ends exactly as its prompt loop does. -/
lemma one_round_snd (g : Roshambo) (rng : Nat → Choice) (lines : List String)
    (k : Nat) : (one_round g rng lines k).2 = (oneRoundLoop g rng lines k).2 := rfl

/-- No run of the session loop, whatever the state, input and fuel, ends in
the internal `GameOver` error. -/
lemma sessionLoop_not_internalError (rng : Nat → Choice) :
    ∀ (fuel : Nat) (g : Roshambo) (lines : List String) (k : Nat),
      (sessionLoop rng fuel g lines k).2 ≠ SessionEnd.internalError := by
  intro fuel
  induction fuel with
  | zero =>
    intro g lines k
    simp [sessionLoop]
  | succ n ih =>
    intro g lines k
    simp only [sessionLoop]
    split
    · simp
    · rename_i hgo
      split
      · simp
      · simp
      · rename_i out heq
        have h2 : (oneRoundLoop g rng lines k).2 = LoopEnd.overErr := by
          rw [← one_round_snd, heq]
        exact absurd h2
          (oneRoundLoop_no_overErr g rng (by simpa using hgo) lines k)
      · simp
      · rename_i g' rest k' heq
        simpa using ih g' rest k'

/-- The session end reported by `roshambo_client` is that of its loop. -/
lemma roshambo_client_snd (rng : Nat → Choice) (lines : List String) :
    (roshambo_client rng lines).2 =
      (sessionLoop rng (lines.length + 1) roshamboStart lines 0).2 := by
  simp only [roshambo_client]
  split <;> rfl

/-- A session can only end `quitEarly` on a state whose match is still
unfinished: the loop checks `game_over` before entering the round. -/
lemma sessionLoop_quitEarly_not_over (rng : Nat → Choice) :
    ∀ (fuel : Nat) (g0 : Roshambo) (lines : List String) (k : Nat) (g : Roshambo),
      (sessionLoop rng fuel g0 lines k).2 = SessionEnd.quitEarly g →
      g.game_over = false := by
  intro fuel
  induction fuel with
  | zero =>
    intro g0 lines k g hq
    simp [sessionLoop] at hq
  | succ n ih =>
    intro g0 lines k g hq
    simp only [sessionLoop] at hq
    split at hq
    · simp at hq
    · rename_i hgo
      split at hq
      · simp at hq
        subst hq
        simpa using hgo
      · simp at hq
      · simp at hq
      · simp at hq
      · rename_i g' rest k' heq
        exact ih g' rest k' g (by simpa using hq)

/-- Two strings with different first characters differ. -/
lemma ne_of_data_head_ne (s t : String) (h : s.data.head? ≠ t.data.head?) :
    s ≠ t := fun he => h (he ▸ rfl)

lemma invalid_line_head (d : String) :
    ("Invalid choice: " ++ d ++ eol).data.head? = some 'I' := by
  rw [String.data_append, String.data_append]
  rfl

/-- An invalid-choice report is never a game verdict (they start with
different characters). -/
lemma invalid_line_not_verdict (d : String) :
    ("Invalid choice: " ++ d ++ eol) ≠ "You won the game!" ∧
    ("Invalid choice: " ++ d ++ eol) ≠ "You lost the game!" :=
  ⟨ne_of_data_head_ne _ _ (by rw [invalid_line_head]; decide),
   ne_of_data_head_ne _ _ (by rw [invalid_line_head]; decide)⟩

lemma bannerOut_not_verdict :
    ∀ s ∈ bannerOut roshamboStart,
      s ≠ "You won the game!" ∧ s ≠ "You lost the game!" := by
  decide

/-- No write of the prompt loop is a game verdict. -/
lemma oneRoundLoop_out_no_verdict (g : Roshambo) (rng : Nat → Choice) :
    ∀ (lines : List String) (k : Nat),
      ∀ s ∈ (oneRoundLoop g rng lines k).1,
        s ≠ "You won the game!" ∧ s ≠ "You lost the game!" := by
  intro lines
  induction lines with
  | nil =>
    intro k s hs
    simp only [oneRoundLoop, List.mem_singleton] at hs
    subst hs
    decide
  | cons line rest ih =>
    intro k s hs
    simp only [oneRoundLoop] at hs
    split at hs
    · simp only [List.mem_singleton] at hs
      subst hs
      decide
    · split at hs
      · simp only [List.mem_cons] at hs
        rcases hs with rfl | rfl | hmem
        · decide
        · exact invalid_line_not_verdict _
        · exact ih k s hmem
      · split at hs
        · simp only [List.mem_cons] at hs
          rcases hs with rfl | rfl | hmem
          · decide
          · exact invalid_line_not_verdict _
          · exact ih k s hmem
        · split at hs
          · simp only [List.mem_singleton] at hs
            subst hs
            decide
          · simp only [List.mem_singleton] at hs
            subst hs
            decide
          · rename_i g' t m res w heq
            simp only [List.mem_cons, List.mem_singleton] at hs
            rcases hs with rfl | rfl | rfl | rfl | hfalse
            · decide
            · cases t <;> decide
            · cases m <;> decide
            · cases res <;> decide
            · simp at hfalse

/-- No write of `one_round` is a game verdict. -/
lemma one_round_out_no_verdict (g : Roshambo) (rng : Nat → Choice)
    (lines : List String) (k : Nat) :
    ∀ s ∈ (one_round g rng lines k).1,
      s ≠ "You won the game!" ∧ s ≠ "You lost the game!" := by
  intro s hs
  simp only [one_round, List.mem_append] at hs
  rcases hs with hb | hl
  · exact bannerOut_not_verdict s hb
  · exact oneRoundLoop_out_no_verdict g rng lines k s hl

/-- No write of the session loop is a game verdict: the verdict is only ever
written by `roshambo_client` after the loop, on normal completion. -/
lemma sessionLoop_out_no_verdict (rng : Nat → Choice) :
    ∀ (fuel : Nat) (g : Roshambo) (lines : List String) (k : Nat),
      ∀ s ∈ (sessionLoop rng fuel g lines k).1,
        s ≠ "You won the game!" ∧ s ≠ "You lost the game!" := by
  intro fuel
  induction fuel with
  | zero =>
    intro g lines k s hs
    simp [sessionLoop] at hs
  | succ n ih =>
    intro g lines k s hs
    simp only [sessionLoop] at hs
    split at hs
    · simp at hs
    · rename_i hgo
      split at hs
      · rename_i out rest kk heq
        have : s ∈ (one_round g rng lines k).1 := by rw [heq]; exact hs
        exact one_round_out_no_verdict g rng lines k s this
      · rename_i out heq
        have : s ∈ (one_round g rng lines k).1 := by rw [heq]; exact hs
        exact one_round_out_no_verdict g rng lines k s this
      · rename_i out heq
        have : s ∈ (one_round g rng lines k).1 := by rw [heq]; exact hs
        exact one_round_out_no_verdict g rng lines k s this
      · rename_i out heq
        have : s ∈ (one_round g rng lines k).1 := by rw [heq]; exact hs
        exact one_round_out_no_verdict g rng lines k s this
      · rename_i out g' rest k' heq
        simp only [List.mem_append] at hs
        rcases hs with h1 | h2
        · have : s ∈ (one_round g rng lines k).1 := by rw [heq]; exact h1
          exact one_round_out_no_verdict g rng lines k s this
        · exact ih g' rest k' s h2

/-! ### Claim theorems: session handler -/

/-- C1 (code bug): the round banner `one_round` writes does not contain the
round number.  The source builds the header with the plain string literal
`"Round {game.round + 1}"` — the `f` prefix is missing — so the second
banner line is that verbatim text for every match state, and in particular
it differs from `"Round 1"` on a fresh match. -/
theorem c1_banner_header_literal :
    (∀ (game : Roshambo) (rng : Nat → Choice) (lines : List String) (k : Nat),
       (one_round game rng lines k).1[1]? = some (roundHeader ++ eol)) ∧
    roundHeader = "Round \x7bgame.round + 1\x7d" ∧
    roshamboStart.round + 1 = 1 ∧
    roundHeader ++ eol ≠ "Round " ++ toString (roshamboStart.round + 1) ++ eol := by
  refine ⟨fun game rng lines k => rfl, rfl, rfl, ?_⟩
  decide

/-- C7: an input line that is neither the quit token nor an integer naming
a valid choice makes the prompt loop emit one invalid-choice report and
continue with the same match state and the same draw counter: `throw` is
not invoked, the round is retried, and the continuation re-prompts. -/
theorem c7_invalid_input_retries (g : Roshambo) (rng : Nat → Choice)
    (line : String) (rest : List String) (k : Nat)
    (hq : pyStrip line ≠ "q")
    (hbad : (pyInt line).bind Choice.ofInt = none) :
    (∃ desc : String,
       oneRoundLoop g rng (line :: rest) k =
         (promptText :: ("Invalid choice: " ++ desc ++ eol) ::
            (oneRoundLoop g rng rest k).1,
          (oneRoundLoop g rng rest k).2)) ∧
    (∃ tail : List String,
       (oneRoundLoop g rng rest k).1 = promptText :: tail) := by
  refine ⟨?_, oneRoundLoop_starts_with_prompt g rng rest k⟩
  cases hpi : pyInt line with
  | none =>
    refine ⟨intErrDesc line, ?_⟩
    simp only [oneRoundLoop, if_neg hq, hpi]
  | some n =>
    have hoc : Choice.ofInt n = none := by simpa [hpi] using hbad
    refine ⟨choiceErrDesc n, ?_⟩
    simp only [oneRoundLoop, if_neg hq, hpi, hoc]

theorem c7_invalid_input_retries_witness :
    pyStrip "5\r\n" ≠ "q" ∧
    (pyInt "5\r\n").bind Choice.ofInt = none ∧
    ((∃ desc : String,
       oneRoundLoop roshamboStart (fun _ => Choice.ROCK) ["5\r\n", "1\r\n"] 0 =
         (promptText :: ("Invalid choice: " ++ desc ++ eol) ::
            (oneRoundLoop roshamboStart (fun _ => Choice.ROCK) ["1\r\n"] 0).1,
          (oneRoundLoop roshamboStart (fun _ => Choice.ROCK) ["1\r\n"] 0).2)) ∧
     (∃ tail : List String,
       (oneRoundLoop roshamboStart (fun _ => Choice.ROCK) ["1\r\n"] 0).1 =
         promptText :: tail)) :=
  ⟨by decide, by decide,
   c7_invalid_input_retries roshamboStart (fun _ => Choice.ROCK) "5\r\n"
     ["1\r\n"] 0 (by decide) (by decide)⟩

/-- C9: the session handler never calls `throw` on a finished match — it
tests `game_over` before each round and each `one_round` plays at most one
round — so no execution of the session loop (any fuel, state and input) or
of `roshambo_client` ends in the internal `GameOver` error: that branch is
unreachable. -/
theorem c9_gameover_unreachable :
    (∀ (rng : Nat → Choice) (fuel : Nat) (g : Roshambo) (lines : List String)
       (k : Nat),
       (sessionLoop rng fuel g lines k).2 ≠ SessionEnd.internalError) ∧
    (∀ (rng : Nat → Choice) (lines : List String),
       (roshambo_client rng lines).2 ≠ SessionEnd.internalError) := by
  refine ⟨fun rng fuel g lines k =>
    sessionLoop_not_internalError rng fuel g lines k, ?_⟩
  intro rng lines
  rw [roshambo_client_snd]
  exact sessionLoop_not_internalError rng _ _ _ _

/-- C8: a session the client abandons with the quit token writes the
farewell `"Giving up?"` (and its CRLF) as its final payloads and nothing
else afterwards; the abandoned match is still unfinished, the quitting line
played no round, and no win/lose verdict sentence is ever written. -/
theorem c8_quit_farewell (rng : Nat → Choice) (lines : List String)
    (g : Roshambo)
    (hq : (roshambo_client rng lines).2 = SessionEnd.quitEarly g) :
    (∃ pre : List String,
       (roshambo_client rng lines).1 = pre ++ ["Giving up?", eol] ∧
       ∀ s ∈ pre, s ≠ "You won the game!" ∧ s ≠ "You lost the game!") ∧
    g.game_over = false ∧
    ("Giving up?" : String) ≠ "You won the game!" ∧
    ("Giving up?" : String) ≠ "You lost the game!" := by
  have hsnd := roshambo_client_snd rng lines
  have hs2 : (sessionLoop rng (lines.length + 1) roshamboStart lines 0).2
      = SessionEnd.quitEarly g := hsnd.symm.trans hq
  refine ⟨⟨(sessionLoop rng (lines.length + 1) roshamboStart lines 0).1, ?_,
           fun s hs => sessionLoop_out_no_verdict rng _ _ _ _ s hs⟩,
          sessionLoop_quitEarly_not_over rng _ _ _ _ g hs2, by decide, by decide⟩
  simp only [roshambo_client]
  rw [hs2]
  rfl

theorem c8_quit_farewell_witness :
    (roshambo_client (fun _ => Choice.ROCK) ["q\r\n"]).2 =
      SessionEnd.quitEarly roshamboStart ∧
    ((∃ pre : List String,
       (roshambo_client (fun _ => Choice.ROCK) ["q\r\n"]).1 =
         pre ++ ["Giving up?", eol] ∧
       ∀ s ∈ pre, s ≠ "You won the game!" ∧ s ≠ "You lost the game!") ∧
     roshamboStart.game_over = false ∧
     ("Giving up?" : String) ≠ "You won the game!" ∧
     ("Giving up?" : String) ≠ "You lost the game!") :=
  ⟨by decide, c8_quit_farewell _ _ _ (by decide)⟩
